import Mathlib

set_option maxHeartbeats 2000000

/-! # Verification of the vinyl-cleanup restoration pipeline

The repository ships the core specification, project documentation and a
static desktop UI.  The DSP engine that the documentation references
(`vinyl_engine::run_baseline_pipeline` in `crates/engine/src/pipeline.rs`)
is not part of the tree, so every pipeline component below is modelled from
the spec, as the individual doc comments state.  The desktop UI
(`apps/desktop/src/App.tsx`) is present and is embedded directly.

Engine samples are 32-bit floats; they are modelled as `Option ℚ`, where
`none` stands for a non-finite value (NaN/Inf) and `some q` for a finite
value held exactly. -/

/-- A PCM sample: `none` models a non-finite (NaN/Inf) 32-bit float. -/
abbrev Samp := Option ℚ

/-- Absolute value on ℚ, written executably. -/
def qabs (q : ℚ) : ℚ := if q < 0 then -q else q

/-- Maximum on ℚ, written executably. -/
def qmax (a b : ℚ) : ℚ := if a ≤ b then b else a

/-- Minimum on ℚ, written executably. -/
def qmin (a b : ℚ) : ℚ := if a ≤ b then a else b

/-- Square of a rational. -/
def squ (q : ℚ) : ℚ := q * q

/-- Maximum of two samples; a non-finite operand poisons the result, as with
IEEE float arithmetic. -/
def omax : Samp → Samp → Samp
  | some a, some b => some (qmax a b)
  | _, _ => none

/-- Absolute value of a sample; non-finite stays non-finite. -/
def oabs : Samp → Samp
  | some q => some (qabs q)
  | none => none

/-- Scaling of a sample by a finite gain; non-finite stays non-finite. -/
def omul (g : ℚ) : Samp → Samp
  | some q => some (g * q)
  | none => none

/-- Numeric view of a sample used by the detector statistics; the detector
claims are only about finite signals, so a non-finite sample reads as 0. -/
def sval (s : Samp) : ℚ := s.getD 0

/-- Numeric view of a whole channel. -/
def vals (chan : List Samp) : List ℚ := chan.map sval

/-- Modelled from the spec (the SampleBuffer container of the missing
engine): a multichannel PCM container, per-channel sample sequences plus the
sample rate. -/
structure SampleBuffer where
  channels : List (List Samp)
  sampleRate : Nat
deriving DecidableEq, Repr

/-- Modelled from the spec: the aggressiveness axis of CleaningConfig. -/
inductive Aggressiveness where
  | low
  | standard
  | high
deriving DecidableEq, Repr

/-- Modelled from the spec: the caller-supplied CleaningConfig, immutable for
the duration of one run. -/
structure CleaningConfig where
  aggressiveness : Aggressiveness
  preserveTransients : Bool
  targetPeak : ℚ
deriving DecidableEq, Repr

/-- Sample of a channel at a (possibly out-of-range) index; outside the
channel the signal reads as 0. -/
def sAt (xs : List ℚ) (i : Int) : ℚ := if i < 0 then 0 else xs.getD i.toNat 0

/-- First difference of the signal at an index. -/
def dAt (xs : List ℚ) (i : Int) : ℚ := sAt xs i - sAt xs (i - 1)

/-- The sliding 11-sample window centred at an index (the spec's "sliding
local statistic window", scaled down to keep the model small). -/
def win11 (i : Int) : List Int := (List.range 11).map (fun k => i + (k : Int) - 5)

/-- Sum of squared samples over a list of indices. -/
def sumSq (xs : List ℚ) (js : List Int) : ℚ := (js.map (fun j => squ (sAt xs j))).sum

/-- Sum of squared first differences over a list of indices. -/
def sumDeltaSq (xs : List ℚ) (js : List Int) : ℚ := (js.map (fun j => squ (dAt xs j))).sum

/-- Local mean square of the signal (the square of the spec's local RMS). -/
def msLevel (xs : List ℚ) (i : Int) : ℚ := sumSq xs (win11 i) / 11

/-- Local mean square of the first difference (square of local delta-RMS). -/
def msDelta (xs : List ℚ) (i : Int) : ℚ := sumDeltaSq xs (win11 i) / 11

/-- Median of three values. -/
def med3 (a b c : ℚ) : ℚ := qmax (qmin a b) (qmin (qmax a b) c)

/-- Deviation of a sample from the short-window (3-sample) median. -/
def devLevel (xs : List ℚ) (i : Int) : ℚ :=
  sAt xs i - med3 (sAt xs (i - 1)) (sAt xs i) (sAt xs (i + 1))

/-- Modelled from the spec: the level-gate factor `k_level`, squared; it
scales inversely with aggressiveness (High → lower threshold). -/
def kLevelSq : Aggressiveness → ℚ
  | .low => 9
  | .standard => 4
  | .high => 1

/-- Modelled from the spec: the delta-gate factor `k_delta`, squared;
inversely scaled with aggressiveness. -/
def kDeltaSq : Aggressiveness → ℚ
  | .low => 1
  | .standard => 1/4
  | .high => 1/9

/-- Modelled from the spec: the neighbor-contrast window `±N`; it also
scales inversely with aggressiveness (a smaller window is a weaker gate). -/
def nbrWin : Aggressiveness → Nat
  | .low => 3
  | .standard => 2
  | .high => 1

/-- Modelled from the spec: a monotonically rising energy envelope just
before the sample, characteristic of a musical note onset.  The exact
envelope formula is left open by the spec; three successive 3-sample energy
sums strictly rising is the model's choice. -/
def risingEnv (xs : List ℚ) (i : Int) : Bool :=
  decide (sumSq xs [i - 9, i - 8, i - 7] < sumSq xs [i - 6, i - 5, i - 4]) &&
  decide (sumSq xs [i - 6, i - 5, i - 4] < sumSq xs [i - 3, i - 2, i - 1])

/-- Modelled from the spec: squared threshold multiplier raised when
`preserveTransients` is set and the surrounding envelope is rising. -/
def tMulSq (pt : Bool) (xs : List ℚ) (i : Int) : ℚ :=
  if pt && risingEnv xs i then 4 else 1

/-- Gate (a): absolute deviation from the short-window median exceeds
`k_level × localRMS` (stated on squares to stay in ℚ). -/
def gateA (agg : Aggressiveness) (pt : Bool) (xs : List ℚ) (i : Int) : Bool :=
  decide (kLevelSq agg * (tMulSq pt xs i * msLevel xs i) < squ (devLevel xs i))

/-- Gate (b): first-difference magnitude exceeds `k_delta × local-delta-RMS`
(stated on squares). -/
def gateB (agg : Aggressiveness) (pt : Bool) (xs : List ℚ) (i : Int) : Bool :=
  decide (kDeltaSq agg * (tMulSq pt xs i * msDelta xs i) < squ (dAt xs i))

/-- Gate (c): the neighbor-contrast gate; the sample differs sharply from
every left and right neighbor within `±N` samples. -/
def gateC (agg : Aggressiveness) (pt : Bool) (xs : List ℚ) (i : Int) : Bool :=
  (List.range (nbrWin agg)).all (fun k =>
    decide (tMulSq pt xs i * msLevel xs i < squ (sAt xs i - sAt xs (i - ((k : Int) + 1)))) &&
    decide (tMulSq pt xs i * msLevel xs i < squ (sAt xs i - sAt xs (i + ((k : Int) + 1)))))

/-- Modelled from the spec: a sample is a candidate when all three detection
gates pass. -/
def isCand (cfg : CleaningConfig) (xs : List ℚ) (i : Nat) : Bool :=
  gateA cfg.aggressiveness cfg.preserveTransients xs (i : Int) &&
  gateB cfg.aggressiveness cfg.preserveTransients xs (i : Int) &&
  gateC cfg.aggressiveness cfg.preserveTransients xs (i : Int)

/-- The ascending list of candidate sample indices of one channel. -/
def candList (cfg : CleaningConfig) (xs : List ℚ) : List Nat :=
  (List.range xs.length).filter (isCand cfg xs)

/-- Modelled from the spec: near-adjacent candidates (gap at most this) are
merged into one event. -/
def mergeGap : Nat := 6

/-- Modelled from the spec: the small guard margin added around a merged
candidate run. -/
def guardMargin : Nat := 3

/-- Groups an ascending candidate list into runs `(first, last)`, merging
candidates whose gap is at most `mergeGap`. -/
def runsAux (first last : Nat) : List Nat → List (Nat × Nat)
  | [] => [(first, last)]
  | c :: cs =>
    if c ≤ last + mergeGap then runsAux first c cs
    else (first, last) :: runsAux c c cs

/-- Runs of an ascending candidate list. -/
def runsOf : List Nat → List (Nat × Nat)
  | [] => []
  | c :: cs => runsAux c c cs

/-- Modelled from the spec: a detected impulse; channel index, start sample,
end sample (exclusive), peak deviation magnitude, confidence in [0,1]. -/
structure ImpulseEvent where
  channel : Nat
  start : Nat
  stop : Nat
  peakDev : ℚ
  confidence : ℚ
deriving DecidableEq, Repr

/-- Builds the event of one candidate run: the run extended by the guard
margin (clamped to the channel), with confidence a monotone function
`d / (1 + d)` of the peak gate excess. -/
def eventOfRun (xs : List ℚ) (ch : Nat) (r : Nat × Nat) : ImpulseEvent :=
  let pd := ((List.range (r.2 + 1 - r.1)).map
    (fun k => qabs (devLevel xs ((r.1 + k : Nat) : Int)))).foldl qmax 0
  { channel := ch
    start := r.1 - guardMargin
    stop := min (r.2 + 1 + guardMargin) xs.length
    peakDev := pd
    confidence := pd / (1 + pd) }

/-- Modelled from the spec: per-channel impulse detection — candidate gates,
merging, guard margin. -/
def detectChannel (cfg : CleaningConfig) (ch : Nat) (chan : List Samp) : List ImpulseEvent :=
  (runsOf (candList cfg (vals chan))).map (eventOfRun (vals chan) ch)

/-- Detection over the remaining channels, `ch` being the index of the first
one; channels are processed independently. -/
def detectAll (cfg : CleaningConfig) : Nat → List (List Samp) → List ImpulseEvent
  | _, [] => []
  | ch, c :: cs => detectChannel cfg ch c ++ detectAll cfg (ch + 1) cs

/-- Modelled from the spec: the ImpulseDetector — the ordered event sequence
over all channels of the (normalized) buffer. -/
def detectImpulses (cfg : CleaningConfig) (buf : SampleBuffer) : List ImpulseEvent :=
  detectAll cfg 0 buf.channels


/-- Modelled from the spec: the resolved repair action of one event. -/
inductive RepairMethod where
  | interpolate
  | inpaint
  | skip
deriving DecidableEq, Repr

/-- Modelled from the spec: the safety limit on repairable span length,
scaled by aggressiveness. -/
def maxSpanOf : Aggressiveness → Nat
  | .low => 8
  | .standard => 16
  | .high => 32

/-- Modelled from the spec: spans up to this length are repaired by
interpolation, longer (repairable) ones by the inpainting strategy. -/
def shortSpanLimit : Nat := 4

/-- Length of an event span in samples. -/
def spanLen (ev : ImpulseEvent) : Nat := ev.stop - ev.start

/-- Whether an event covers sample `i` of channel `ch`. -/
def coveredBy (ev : ImpulseEvent) (ch i : Nat) : Bool :=
  ev.channel == ch && decide (ev.start ≤ i) && decide (i < ev.stop)

/-- Modelled from the spec: `RepairInfeasible` — the clean context on both
sides of the event is itself flagged as impulsive; recovered locally by
escalating the event to skip, never fatally. -/
def contextFlagged (events : List ImpulseEvent) (ev : ImpulseEvent) : Bool :=
  (ev.start == 0 || events.any (fun e => coveredBy e ev.channel (ev.start - 1))) &&
  events.any (fun e => coveredBy e ev.channel ev.stop)

/-- Modelled from the spec: the repair policy by span length — interpolate
short spans, inpaint medium ones, and skip spans exceeding the safety limit
or events whose context is infeasible. -/
def planMethod (cfg : CleaningConfig) (events : List ImpulseEvent)
    (ev : ImpulseEvent) : RepairMethod :=
  if maxSpanOf cfg.aggressiveness < spanLen ev then .skip
  else if contextFlagged events ev then .skip
  else if spanLen ev ≤ shortSpanLimit then .interpolate
  else .inpaint

/-- Modelled from the spec: the RepairPlan — one resolved action per
event. -/
def makePlan (cfg : CleaningConfig) (events : List ImpulseEvent) :
    List (ImpulseEvent × RepairMethod) :=
  events.map (fun e => (e, planMethod cfg events e))

/-- Cubic Lagrange interpolation through four support points. -/
def lagrange4 (x0 x1 x2 x3 y0 y1 y2 y3 t : ℚ) : ℚ :=
  y0 * ((t - x1) * (t - x2) * (t - x3)) / ((x0 - x1) * (x0 - x2) * (x0 - x3)) +
  y1 * ((t - x0) * (t - x2) * (t - x3)) / ((x1 - x0) * (x1 - x2) * (x1 - x3)) +
  y2 * ((t - x0) * (t - x1) * (t - x3)) / ((x2 - x0) * (x2 - x1) * (x2 - x3)) +
  y3 * ((t - x0) * (t - x1) * (t - x2)) / ((x3 - x0) * (x3 - x1) * (x3 - x2))

/-- Modelled from the spec: short-span repair — cubic interpolation through
the clean samples immediately outside the span on both sides. -/
def interpVal (xs : List ℚ) (ev : ImpulseEvent) (i : Nat) : ℚ :=
  let a : Int := ev.start
  let b : Int := ev.stop
  lagrange4 ((a : ℚ) - 2) ((a : ℚ) - 1) (b : ℚ) ((b : ℚ) + 1)
    (sAt xs (a - 2)) (sAt xs (a - 1)) (sAt xs b) (sAt xs (b + 1)) (i : ℚ)

/-- Modelled from the spec: medium-span repair — linear autoregressive
extrapolation from the clean context on each side, cross-faded across the
gap to avoid a seam. -/
def inpaintVal (xs : List ℚ) (ev : ImpulseEvent) (i : Nat) : ℚ :=
  let a : Int := ev.start
  let b : Int := ev.stop
  let leftP := sAt xs (a - 1) + ((i : ℚ) - ((a : ℚ) - 1)) * (sAt xs (a - 1) - sAt xs (a - 2))
  let rightP := sAt xs b + ((b : ℚ) - (i : ℚ)) * (sAt xs b - sAt xs (b + 1))
  let w := ((i : ℚ) + 1 - (a : ℚ)) / ((spanLen ev : ℚ) + 1)
  (1 - w) * leftP + w * rightP

/-- The repaired value of sample `i` of channel `ch`: samples outside every
event span, and samples of skipped events, pass through unchanged. -/
def repSample (cfg : CleaningConfig) (events : List ImpulseEvent) (ch : Nat)
    (chanFull : List Samp) (i : Nat) (s : Samp) : Samp :=
  match events.find? (fun e => coveredBy e ch i) with
  | none => s
  | some ev =>
    match planMethod cfg events ev with
    | .skip => s
    | .interpolate => some (interpVal (vals chanFull) ev i)
    | .inpaint => some (inpaintVal (vals chanFull) ev i)

/-- Repair of the tail of a channel whose first sample has index `i`. -/
def repairChanAux (cfg : CleaningConfig) (events : List ImpulseEvent) (ch : Nat)
    (chanFull : List Samp) : Nat → List Samp → List Samp
  | _, [] => []
  | i, s :: rest =>
    repSample cfg events ch chanFull i s :: repairChanAux cfg events ch chanFull (i + 1) rest

/-- Modelled from the spec: repair of one channel, producing a new sample
sequence (the input is never mutated). -/
def repairChannel (cfg : CleaningConfig) (events : List ImpulseEvent) (ch : Nat)
    (chan : List Samp) : List Samp :=
  repairChanAux cfg events ch chan 0 chan

/-- Repair over the remaining channels, `ch` the index of the first one. -/
def repairAll (cfg : CleaningConfig) (events : List ImpulseEvent) :
    Nat → List (List Samp) → List (List Samp)
  | _, [] => []
  | ch, c :: cs => repairChannel cfg events ch c :: repairAll cfg events (ch + 1) cs

/-- Modelled from the spec: the Repairer — a new repaired buffer built from
the normalized buffer and the detected events. -/
def repairBuf (cfg : CleaningConfig) (buf : SampleBuffer)
    (events : List ImpulseEvent) : SampleBuffer :=
  { channels := repairAll cfg events 0 buf.channels, sampleRate := buf.sampleRate }

/-- Peak of a flat sample list: the maximum absolute value, poisoned by any
non-finite sample. -/
def peakList (l : List Samp) : Samp :=
  l.foldl (fun a s => omax a (oabs s)) (some 0)

/-- Modelled from the spec: the peak absolute sample value across all
channels. -/
def peakOf (buf : SampleBuffer) : Samp := peakList buf.channels.flatten

/-- Modelled from the spec: the representable amplitude ceiling used by the
clipping check (full scale). -/
def ampCeiling : ℚ := 1

/-- Modelled from the spec: the safety ceiling on normalization gain (at
most +6 dB, i.e. a factor of 2). -/
def gainCap : ℚ := 2

/-- Modelled from the spec: the scalar gain the Normalizer applies —
`targetPeak / peak`, clamped, and 1 on silence. -/
def gainOf (cfg : CleaningConfig) (buf : SampleBuffer) : ℚ :=
  match peakOf buf with
  | none => 1
  | some p => if p = 0 then 1 else qmin (cfg.targetPeak / p) gainCap

/-- Modelled from the spec: the Normalizer — scales every sample by the
gain; a silent buffer (zero peak) is left untouched. -/
def normalizeBuf (cfg : CleaningConfig) (buf : SampleBuffer) : SampleBuffer :=
  match peakOf buf with
  | none => buf
  | some p =>
    if p = 0 then buf
    else
      { channels := buf.channels.map (fun c => c.map (omul (qmin (cfg.targetPeak / p) gainCap)))
        sampleRate := buf.sampleRate }

/-- Modelled from the spec: the SampleBuffer validity check — all channel
lengths equal. -/
def channelsOk (buf : SampleBuffer) : Bool :=
  buf.channels.all (fun c => c.length == (buf.channels.headD []).length)

/-- A clipped sample: finite with magnitude beyond the ceiling. -/
def sampleClipped : Samp → Bool
  | some q => decide (ampCeiling < qabs q)
  | none => false

/-- A non-finite sample. -/
def sampleNonFinite : Samp → Bool
  | none => true
  | some _ => false

/-- Modelled from the spec: the Validator clipping check over a buffer. -/
def clippingOf (buf : SampleBuffer) : Bool :=
  buf.channels.any (fun c => c.any sampleClipped)

/-- Modelled from the spec: the Validator count of non-finite samples. -/
def nonFiniteCountOf (buf : SampleBuffer) : Nat :=
  (buf.channels.map (fun c => c.countP sampleNonFinite)).sum

/-- Total signal energy of a buffer. -/
def energyOf (buf : SampleBuffer) : ℚ :=
  (buf.channels.map (fun c => (c.map (fun s => squ (sval s))).sum)).sum

/-- Modelled from the spec: the configured floor of the transient-energy
preservation check (default 0.90). -/
def retentionFloor : ℚ := 9 / 10

/-- Modelled from the spec: the transient-energy-preservation measure of the
cleaned buffer relative to the normalized one.  The spec leaves the exact
formula open; the model uses the total-energy quotient, and 1 on a silent
reference. -/
def retentionOf (orig out : SampleBuffer) : ℚ :=
  if energyOf orig = 0 then 1 else energyOf out / energyOf orig

/-- Modelled from the spec: the QualityReport — clipping flag, non-finite
count, transient retention with its soft-warning flag, and the per-event
repair outcomes. -/
structure QualityReport where
  clippingDetected : Bool
  nonFiniteCount : Nat
  transientRetention : ℚ
  retentionWarning : Bool
  outcomes : List (ImpulseEvent × RepairMethod)
deriving DecidableEq, Repr

/-- Modelled from the spec: the Validator report over the repaired buffer;
a retention shortfall only sets the soft-warning flag. -/
def mkReport (orig out : SampleBuffer) (plan : List (ImpulseEvent × RepairMethod)) :
    QualityReport :=
  { clippingDetected := clippingOf out
    nonFiniteCount := nonFiniteCountOf out
    transientRetention := retentionOf orig out
    retentionWarning := decide (retentionOf orig out < retentionFloor)
    outcomes := plan }

/-- Modelled from the spec: the derived user-facing label plus numeric
confidence. -/
structure CleanlinessScore where
  label : String
  value : ℚ
deriving DecidableEq, Repr

/-- Fraction of detected impulses successfully repaired (not skipped); 1
when nothing was detected. -/
def repairedFraction (plan : List (ImpulseEvent × RepairMethod)) : ℚ :=
  if plan.length = 0 then 1
  else (plan.countP (fun pr => pr.2 != RepairMethod.skip) : ℚ) / (plan.length : ℚ)

/-- Modelled from the spec: the ConfidenceScorer — combines repaired
fraction, transient retention and absence of warnings into a bounded score
mapped to the three-tier label. -/
def scoreOf (report : QualityReport) (plan : List (ImpulseEvent × RepairMethod)) :
    CleanlinessScore :=
  let base := (repairedFraction plan + qmin report.transientRetention 1) / 2
  let v := qmax 0 (base - (if report.retentionWarning then 1 / 10 else 0))
  { label := if 9 / 10 ≤ v then "Excellent" else if 7 / 10 ≤ v then "Great" else "Good"
    value := v }

/-- Modelled from the spec: the error taxonomy of a cleaning run.
`repairInfeasible` is listed for completeness; it is always recovered
locally by escalating the event to skip and never aborts the run. -/
inductive PipelineError where
  | invalidBuffer
  | validationFailed (clipped : Bool) (nonFiniteSamples : Nat)
  | repairInfeasible
deriving DecidableEq, Repr

/-- The outputs of a successful cleaning run. -/
structure PipelineResult where
  output : SampleBuffer
  gain : ℚ
  events : List ImpulseEvent
  plan : List (ImpulseEvent × RepairMethod)
  report : QualityReport
  score : CleanlinessScore
deriving DecidableEq, Repr

/-- Stage composition: the normalized buffer of a run. -/
def normOf (cfg : CleaningConfig) (buf : SampleBuffer) : SampleBuffer :=
  normalizeBuf cfg buf

/-- Stage composition: the events the detector produces during a run. -/
def eventsOf (cfg : CleaningConfig) (buf : SampleBuffer) : List ImpulseEvent :=
  detectImpulses cfg (normOf cfg buf)

/-- Stage composition: the realized RepairPlan of a run. -/
def planOf (cfg : CleaningConfig) (buf : SampleBuffer) :
    List (ImpulseEvent × RepairMethod) :=
  makePlan cfg (eventsOf cfg buf)

/-- Stage composition: the repaired buffer of a run. -/
def repairedOf (cfg : CleaningConfig) (buf : SampleBuffer) : SampleBuffer :=
  repairBuf cfg (normOf cfg buf) (eventsOf cfg buf)

/-- Stage composition: the QualityReport of a run. -/
def reportOf (cfg : CleaningConfig) (buf : SampleBuffer) : QualityReport :=
  mkReport (normOf cfg buf) (repairedOf cfg buf) (planOf cfg buf)

/-- The result record of a run that passed validation. -/
def okResult (cfg : CleaningConfig) (buf : SampleBuffer) : PipelineResult :=
  { output := repairedOf cfg buf
    gain := gainOf cfg buf
    events := eventsOf cfg buf
    plan := planOf cfg buf
    report := reportOf cfg buf
    score := scoreOf (reportOf cfg buf) (planOf cfg buf) }

/-- Modelled from the spec: `vinyl_engine::run_baseline_pipeline`
(`crates/engine/src/pipeline.rs`, absent from the tree) — normalize, detect,
repair, validate, score; a malformed buffer aborts before processing starts,
and a clipping or non-finite finding aborts with `validationFailed`. -/
def run_baseline_pipeline (cfg : CleaningConfig) (buf : SampleBuffer) :
    Except PipelineError PipelineResult :=
  if channelsOk buf then
    if (reportOf cfg buf).clippingDetected || (reportOf cfg buf).nonFiniteCount != 0 then
      .error (.validationFailed (reportOf cfg buf).clippingDetected
        (reportOf cfg buf).nonFiniteCount)
    else .ok (okResult cfg buf)
  else .error .invalidBuffer

/-- Number of events the detector produces inside a run of the pipeline. -/
def numEventsOf (cfg : CleaningConfig) (buf : SampleBuffer) : Nat :=
  (eventsOf cfg buf).length

/-- The config with its aggressiveness replaced. -/
def withAgg (cfg : CleaningConfig) (a : Aggressiveness) : CleaningConfig :=
  { cfg with aggressiveness := a }

/-- Numeric rank of an aggressiveness level (Low < Standard < High). -/
def aggRank : Aggressiveness → Nat
  | .low => 0
  | .standard => 1
  | .high => 2

/-- Total candidate-sample count of a run, over the normalized buffer. -/
def candTotal (cfg : CleaningConfig) (buf : SampleBuffer) : Nat :=
  ((normOf cfg buf).channels.map (fun c => (candList cfg (vals c)).length)).sum

/-- Modelled from the spec: the PipelineOrchestrator state machine. -/
inductive OrchState where
  | idle
  | normalizing
  | detecting
  | repairing
  | validating
  | scoring
  | done
  | failed (reason : PipelineError)
  | cancelled
deriving DecidableEq, Repr

/-- Modelled from the spec: the strictly sequential stage order; terminal
states have no successor. -/
def nextStage : OrchState → Option OrchState
  | .idle => some .normalizing
  | .normalizing => some .detecting
  | .detecting => some .repairing
  | .repairing => some .validating
  | .validating => some .scoring
  | .scoring => some .done
  | .done => none
  | .failed _ => none
  | .cancelled => none

/-- Whether a state is one of the three terminal outcomes. -/
def isTerminal : OrchState → Bool
  | .done => true
  | .failed _ => true
  | .cancelled => true
  | _ => false

/-- Modelled from the spec: the Orchestrator transition relation — advance
one step in the fixed sequence, fail from any non-terminal stage, or cancel
between stages. -/
inductive OrchStep : OrchState → OrchState → Prop where
  | advance (s t : OrchState) : nextStage s = some t → OrchStep s t
  | fail (s : OrchState) (e : PipelineError) : isTerminal s = false → OrchStep s (.failed e)
  | cancel (s : OrchState) : isTerminal s = false → OrchStep s .cancelled

/-- A rendered UI element tree: tag, attributes, attached event handlers,
children — or a text node.  `App.tsx` attaches no handlers anywhere, which
the embedding records faithfully as empty handler lists. -/
inductive UINode where
  | el (tag : String) (attrs : List (String × String)) (handlers : List String)
      (children : List UINode)
  | text (s : String)
deriving BEq

/-- The three `metrics` entries of `App.tsx` (module-level constant). -/
structure Metric where
  label : String
  value : String
  trend : String
deriving BEq

/-- `metrics` from `App.tsx` lines 3-7. -/
def metrics : List Metric :=
  [⟨"Clicks detected", "1,024", "+12%"⟩,
   ⟨"Noise reduction", "-18 dB", "Balanced"⟩,
   ⟨"Harmonic integrity", "98%", "Preserved"⟩]

/-- `activity` from `App.tsx` lines 9-13. -/
def activity : List String :=
  ["Drop audio file to start cleaning.",
   "Auto profile: Warm vinyl (78 RPM preset).",
   "Preview cleanup ready."]

/-- `presets` from `App.tsx` line 15. -/
def presets : List String := ["Warm vinyl", "Modern reissue", "Live bootleg"]

/-- The element tree the `App` component returns, parameterized by the three
module-level constants it reads; a direct transcription of the JSX of
`App.tsx` lines 17-156. -/
def appRender (ms : List Metric) (acts : List String) (ps : List String) : UINode :=
  .el "div" [("className", "app")] []
    [.el "header" [("className", "app__header")] []
      [.el "div" [] []
        [.el "p" [("className", "app__eyebrow")] [] [.text "Vinyl Transfer Cleaner"],
         .el "h1" [] [] [.text "Restore the soul of every groove."],
         .el "p" [("className", "app__subtext")] []
           [.text "One-click cleanup tuned for pops, crackle, and tape hiss — with the music left untouched."]],
       .el "div" [("className", "app__status")] []
        [.el "div" [] []
          [.el "p" [("className", "app__status-label")] [] [.text "Engine status"],
           .el "p" [("className", "app__status-value")] [] [.text "Idle • Ready"]],
         .el "button" [("className", "app__secondary"), ("type", "button")] []
           [.text "Connect hardware"]]],
     .el "main" [("className", "app__grid")] []
      [.el "section" [("className", "card card--drop")] []
        [.el "div" [("className", "card__header")] []
          [.el "h2" [] [] [.text "Source audio"],
           .el "span" [("className", "pill")] [] [.text "PCM/WAV/AIFF"]],
         .el "div" [("className", "dropzone")] []
          [.el "p" [] [] [.text "Drag & drop a recording or browse files."],
           .el "button" [("className", "app__primary"), ("type", "button")] []
             [.text "Choose file"]],
         .el "div" [("className", "dropzone__footer")] []
          [.el "div" [] []
            [.el "p" [("className", "label")] [] [.text "Auto detect"],
             .el "p" [("className", "value")] [] [.text "Needle drop • 96 kHz"]],
           .el "div" [] []
            [.el "p" [("className", "label")] [] [.text "Selected preset"],
             .el "p" [("className", "value")] [] [.text "Warm vinyl"]]]],
       .el "section" [("className", "card")] []
        [.el "div" [("className", "card__header")] []
          [.el "h2" [] [] [.text "Cleanup controls"],
           .el "span" [("className", "pill pill--accent")] [] [.text "Real-time"]],
         .el "div" [("className", "control-stack")] []
          [.el "div" [] []
            [.el "p" [("className", "label")] [] [.text "Preset"],
             .el "div" [("className", "chip-row")] []
               (ps.map (fun preset =>
                 .el "button" [("className", "chip"), ("key", preset), ("type", "button")] []
                   [.text preset]))],
           .el "div" [] []
            [.el "div" [("className", "slider-row")] []
              [.el "div" [] []
                [.el "p" [("className", "label")] [] [.text "Cleanup intensity"],
                 .el "p" [("className", "value")] [] [.text "Balanced"]],
               .el "input" [("aria-label", "Cleanup intensity"), ("defaultValue", "60"),
                 ("min", "0"), ("max", "100"), ("type", "range")] [] []]],
           .el "div" [] []
            [.el "div" [("className", "toggle")] []
              [.el "input" [("defaultChecked", "true"), ("id", "preview"), ("type", "checkbox")] [] [],
               .el "label" [("htmlFor", "preview")] [] [.text "Instant A/B preview"]],
             .el "div" [("className", "toggle")] []
              [.el "input" [("defaultChecked", "true"), ("id", "transient"), ("type", "checkbox")] [] [],
               .el "label" [("htmlFor", "transient")] [] [.text "Preserve transients"]]]],
         .el "button" [("className", "app__primary app__primary--wide"), ("type", "button")] []
           [.text "Clean + Export"]],
       .el "section" [("className", "card")] []
        [.el "div" [("className", "card__header")] []
          [.el "h2" [] [] [.text "Live feedback"],
           .el "span" [("className", "pill")] [] [.text "Auto"]],
         .el "div" [("className", "metric-grid")] []
           (ms.map (fun metric =>
             .el "div" [("className", "metric"), ("key", metric.label)] []
               [.el "p" [("className", "metric__label")] [] [.text metric.label],
                .el "p" [("className", "metric__value")] [] [.text metric.value],
                .el "p" [("className", "metric__trend")] [] [.text metric.trend]])),
         .el "div" [("className", "waveform")] []
          [.el "div" [("className", "waveform__bars"), ("aria-hidden", "true")] [] [],
           .el "p" [("className", "waveform__label")] [] [.text "Preview waveform (before/after)"]]],
       .el "section" [("className", "card card--activity")] []
        [.el "div" [("className", "card__header")] []
          [.el "h2" [] [] [.text "Session activity"],
           .el "span" [("className", "pill pill--muted")] [] [.text "Queue"]],
         .el "ul" [("className", "activity-list")] []
           (acts.map (fun item => .el "li" [("key", item)] [] [.text item])),
         .el "details" [] []
          [.el "summary" [] [] [.text "Advanced options"],
           .el "div" [("className", "advanced")] []
            [.el "div" [] []
              [.el "p" [("className", "label")] [] [.text "Click profile"],
               .el "p" [("className", "value")] [] [.text "Adaptive split-band"]],
             .el "div" [] []
              [.el "p" [("className", "label")] [] [.text "Crackle guard"],
               .el "p" [("className", "value")] [] [.text "Vintage lacquer"]],
             .el "div" [] []
              [.el "p" [("className", "label")] [] [.text "Noise floor"],
               .el "p" [("className", "value")] [] [.text "Match room tone"]]]]]]]

/-- The `App` component of `App.tsx`: it takes no props and reads only the
three module-level constants; rendering ignores its (unit) argument. -/
def App : Unit → UINode := fun _ => appRender metrics activity presets

/-- Children of a UI node. -/
def childrenOf : UINode → List UINode
  | .el _ _ _ cs => cs
  | .text _ => []

/-- Handler list of a UI node. -/
def handlersOf : UINode → List String
  | .el _ _ hs _ => hs
  | .text _ => []

/-- Fuel-bounded universal check over a node and all its descendants.  Fuel
exhaustion yields `false`, so a `true` result means the predicate was
verified on every node of the tree, whatever the fuel. -/
def uiAllF : Nat → (UINode → Bool) → UINode → Bool
  | 0, _, _ => false
  | fuel + 1, p, n => p n && (childrenOf n).all (fun c => uiAllF fuel p c)

/-- Every button element carries an explicit attribute pair. -/
def buttonTyped : UINode → Bool
  | .el "button" attrs _ _ => attrs.contains ("type", "button")
  | _ => true

/-- Every input element is uncontrolled: no value/checked binding and no
change handler attribute. -/
def inputUncontrolled : UINode → Bool
  | .el "input" attrs _ _ =>
    !(attrs.any (fun p =>
      p.1 == "value" || p.1 == "checked" || p.1 == "onChange" || p.1 == "onInput" ||
      p.1 == "onClick"))
  | _ => true

/-- A node carries no event handler. -/
def noHandlers (n : UINode) : Bool := handlersOf n == []

/-- Concrete test signal: unit background with strong spikes at samples 10
and 22 and a moderate spike at 16. -/
def cexSig : List ℚ :=
  [1, 1, 1, 1, 1, 1, 1, 1, 1, 1, 24, 1, 1, 1, 1, 1, 5, 1, 1, 1, 1, 1, 24,
   1, 1, 1, 1, 1, 1, 1, 1, 1, 1]

/-- Single-channel buffer holding `cexSig`. -/
def cexBuf : SampleBuffer := ⟨[cexSig.map (fun q => some q)], 44100⟩

/-- Low-aggressiveness configuration used on concrete inputs. -/
def cfgLowP : CleaningConfig := ⟨.low, false, 1⟩

/-- Standard-aggressiveness configuration used on concrete inputs. -/
def cfgStdP : CleaningConfig := ⟨.standard, false, 1⟩

/-- Concrete test signal with two strong spikes 6 samples apart, which the
detector merges into one long (beyond the Low safety limit) event. -/
def c3Sig : List ℚ :=
  [1, 1, 1, 1, 1, 1, 1, 1, 1, 1, 24, 1, 1, 1, 1, 1, 24, 1, 1, 1, 1, 1, 1,
   1, 1, 1, 1, 1]

/-- Single-channel buffer holding `c3Sig`. -/
def c3Buf : SampleBuffer := ⟨[c3Sig.map (fun q => some q)], 44100⟩

/-- A silent two-channel buffer. -/
def zeroBuf : SampleBuffer := ⟨[[some 0, some 0, some 0], [some 0, some 0, some 0]], 44100⟩

/-- A malformed buffer: channel lengths differ. -/
def badBuf : SampleBuffer := ⟨[[some 0], [some 0, some 0]], 44100⟩

deriving instance DecidableEq for Except

/-- Sample `i` of channel `ch` of a buffer (the signal reads as 0 outside). -/
def sampleAt (buf : SampleBuffer) (ch i : Nat) : Samp :=
  (buf.channels.getD ch []).getD i (some 0)

/-- Two events do not overlap: distinct channels or disjoint spans. -/
def EvDisjoint (e1 e2 : ImpulseEvent) : Prop :=
  e1.channel ≠ e2.channel ∨ e1.stop ≤ e2.start ∨ e2.stop ≤ e1.start

/-! ## Helper lemmas -/

/-- `uiAllF` never accepts a node without having checked the predicate on it
and accepted all of its children with the remaining fuel. -/
theorem uiAllF_sound {fuel : Nat} {p : UINode → Bool} {n : UINode}
    (h : uiAllF (fuel + 1) p n = true) :
    p n = true ∧ ∀ c ∈ childrenOf n, uiAllF fuel p c = true := by
  simp only [uiAllF, Bool.and_eq_true, List.all_eq_true] at h
  exact ⟨h.1, h.2⟩

theorem squ_nonneg (q : ℚ) : 0 ≤ squ q := mul_self_nonneg q

theorem qabs_nonneg (q : ℚ) : 0 ≤ qabs q := by
  unfold qabs; split <;> linarith

theorem qabs_eq_zero {q : ℚ} (h : qabs q = 0) : q = 0 := by
  unfold qabs at h; split at h <;> linarith

theorem qmax_le_left (a b : ℚ) : a ≤ qmax a b := by
  unfold qmax; split <;> linarith

theorem qmax_le_right (a b : ℚ) : b ≤ qmax a b := by
  unfold qmax; split <;> linarith

theorem sumSq_nonneg (xs : List ℚ) (js : List Int) : 0 ≤ sumSq xs js := by
  refine List.sum_nonneg ?_
  intro x hx
  simp only [List.mem_map] at hx
  obtain ⟨j, _, rfl⟩ := hx
  exact squ_nonneg _

theorem sumDeltaSq_nonneg (xs : List ℚ) (js : List Int) : 0 ≤ sumDeltaSq xs js := by
  refine List.sum_nonneg ?_
  intro x hx
  simp only [List.mem_map] at hx
  obtain ⟨j, _, rfl⟩ := hx
  exact squ_nonneg _

theorem msLevel_nonneg (xs : List ℚ) (i : Int) : 0 ≤ msLevel xs i :=
  div_nonneg (sumSq_nonneg xs _) (by norm_num)

theorem msDelta_nonneg (xs : List ℚ) (i : Int) : 0 ≤ msDelta xs i :=
  div_nonneg (sumDeltaSq_nonneg xs _) (by norm_num)

theorem tMulSq_nonneg (pt : Bool) (xs : List ℚ) (i : Int) : 0 ≤ tMulSq pt xs i := by
  unfold tMulSq; split <;> norm_num

theorem kLevelSq_antitone {a b : Aggressiveness} (h : aggRank a ≤ aggRank b) :
    kLevelSq b ≤ kLevelSq a := by
  cases a <;> cases b <;> (simp_all [aggRank, kLevelSq]; try norm_num)

theorem kDeltaSq_antitone {a b : Aggressiveness} (h : aggRank a ≤ aggRank b) :
    kDeltaSq b ≤ kDeltaSq a := by
  cases a <;> cases b <;> (simp_all [aggRank, kDeltaSq]; try norm_num)

theorem nbrWin_antitone {a b : Aggressiveness} (h : aggRank a ≤ aggRank b) :
    nbrWin b ≤ nbrWin a := by
  cases a <;> cases b <;> simp_all [aggRank, nbrWin]

theorem gateA_mono {a b : Aggressiveness} (h : aggRank a ≤ aggRank b) (pt : Bool)
    (xs : List ℚ) (i : Int) (hg : gateA a pt xs i = true) : gateA b pt xs i = true := by
  simp only [gateA, decide_eq_true_eq] at hg ⊢
  refine lt_of_le_of_lt ?_ hg
  exact mul_le_mul_of_nonneg_right (kLevelSq_antitone h)
    (mul_nonneg (tMulSq_nonneg pt xs i) (msLevel_nonneg xs i))

theorem gateB_mono {a b : Aggressiveness} (h : aggRank a ≤ aggRank b) (pt : Bool)
    (xs : List ℚ) (i : Int) (hg : gateB a pt xs i = true) : gateB b pt xs i = true := by
  simp only [gateB, decide_eq_true_eq] at hg ⊢
  refine lt_of_le_of_lt ?_ hg
  exact mul_le_mul_of_nonneg_right (kDeltaSq_antitone h)
    (mul_nonneg (tMulSq_nonneg pt xs i) (msDelta_nonneg xs i))

theorem gateC_mono {a b : Aggressiveness} (h : aggRank a ≤ aggRank b) (pt : Bool)
    (xs : List ℚ) (i : Int) (hg : gateC a pt xs i = true) : gateC b pt xs i = true := by
  simp only [gateC, List.all_eq_true] at hg ⊢
  intro k hk
  exact hg k (List.mem_range.mpr (lt_of_lt_of_le (List.mem_range.mp hk) (nbrWin_antitone h)))

theorem isCand_mono (cfg : CleaningConfig) {a b : Aggressiveness} (h : aggRank a ≤ aggRank b)
    (xs : List ℚ) (i : Nat) (hc : isCand (withAgg cfg a) xs i = true) :
    isCand (withAgg cfg b) xs i = true := by
  simp only [isCand, withAgg, Bool.and_eq_true] at hc ⊢
  exact ⟨⟨gateA_mono h _ _ _ hc.1.1, gateB_mono h _ _ _ hc.1.2⟩, gateC_mono h _ _ _ hc.2⟩

theorem candList_length_mono (cfg : CleaningConfig) {a b : Aggressiveness}
    (h : aggRank a ≤ aggRank b) (xs : List ℚ) :
    (candList (withAgg cfg a) xs).length ≤ (candList (withAgg cfg b) xs).length := by
  simp only [candList, ← List.countP_eq_length_filter]
  exact List.countP_mono_left (fun i _ hi => isCand_mono cfg h xs i hi)

/-! ## A silent signal produces no candidates and no events -/

theorem getD_zero {xs : List ℚ} (h : ∀ x ∈ xs, x = 0) (n : Nat) : xs.getD n 0 = 0 := by
  induction xs generalizing n with
  | nil => simp
  | cons x t ih =>
    cases n with
    | zero => simpa using h x (by simp)
    | succ m => simpa using ih (fun y hy => h y (by simp [hy])) m

theorem sAt_zero {xs : List ℚ} (h : ∀ x ∈ xs, x = 0) (i : Int) : sAt xs i = 0 := by
  unfold sAt; split
  · rfl
  · exact getD_zero h _

theorem med3_zero : med3 0 0 0 = 0 := by norm_num [med3, qmax, qmin]

theorem devLevel_zero {xs : List ℚ} (h : ∀ x ∈ xs, x = 0) (i : Int) : devLevel xs i = 0 := by
  simp [devLevel, sAt_zero h, med3_zero]

theorem isCand_zero {xs : List ℚ} (h : ∀ x ∈ xs, x = 0) (cfg : CleaningConfig) (i : Nat) :
    isCand cfg xs i = false := by
  have hA : gateA cfg.aggressiveness cfg.preserveTransients xs (i : Int) = false := by
    simp only [gateA, decide_eq_false_iff_not, not_lt, devLevel_zero h]
    have h0 : squ 0 = 0 := by norm_num [squ]
    rw [h0]
    refine mul_nonneg ?_ (mul_nonneg (tMulSq_nonneg _ _ _) (msLevel_nonneg _ _))
    cases cfg.aggressiveness <;> norm_num [kLevelSq]
  simp [isCand, hA]

theorem candList_zero {xs : List ℚ} (h : ∀ x ∈ xs, x = 0) (cfg : CleaningConfig) :
    candList cfg xs = [] :=
  List.filter_eq_nil_iff.mpr (fun i _ => by simp [isCand_zero h])

theorem vals_zero {chan : List Samp} (h : ∀ s ∈ chan, s = some 0) :
    ∀ x ∈ vals chan, x = 0 := by
  intro x hx
  simp only [vals, List.mem_map] at hx
  obtain ⟨s, hs, rfl⟩ := hx
  rw [h s hs]; rfl

theorem detectChannel_zero {chan : List Samp} (h : ∀ s ∈ chan, s = some 0)
    (cfg : CleaningConfig) (ch : Nat) : detectChannel cfg ch chan = [] := by
  simp [detectChannel, candList_zero (vals_zero h), runsOf]

theorem detectAll_zero {cs : List (List Samp)} (h : ∀ c ∈ cs, ∀ s ∈ c, s = some 0)
    (cfg : CleaningConfig) (k : Nat) : detectAll cfg k cs = [] := by
  induction cs generalizing k with
  | nil => rfl
  | cons c t ih =>
    simp [detectAll, detectChannel_zero (h c (by simp)) cfg k,
      ih (fun c hc => h c (by simp [hc]))]

/-! ## Peak characterization -/

theorem omax_none_left (s : Samp) : omax none s = none := by cases s <;> rfl

theorem peak_foldl_none (l : List Samp) :
    l.foldl (fun a s => omax a (oabs s)) none = none := by
  induction l with
  | nil => rfl
  | cons s t ih => simpa [omax_none_left] using ih

theorem peak_foldl_le {l : List Samp} : ∀ {c r : ℚ},
    l.foldl (fun a s => omax a (oabs s)) (some c) = some r → c ≤ r := by
  induction l with
  | nil => intro c r h; simp at h; exact le_of_eq h
  | cons s t ih =>
    intro c r h
    cases s with
    | none =>
      rw [List.foldl_cons] at h
      rw [show omax (some c) (oabs none) = none from rfl, peak_foldl_none] at h
      exact absurd h (by simp)
    | some q =>
      rw [List.foldl_cons] at h
      rw [show omax (some c) (oabs (some q)) = some (qmax c (qabs q)) from rfl] at h
      exact le_trans (qmax_le_left c (qabs q)) (ih h)

theorem peak_foldl_zero {l : List Samp} : ∀ {c : ℚ},
    l.foldl (fun a s => omax a (oabs s)) (some c) = some 0 → ∀ s ∈ l, s = some 0 := by
  induction l with
  | nil => simp
  | cons s t ih =>
    intro c h x hx
    cases s with
    | none =>
      rw [List.foldl_cons] at h
      rw [show omax (some c) (oabs none) = none from rfl, peak_foldl_none] at h
      exact absurd h (by simp)
    | some q =>
      rw [List.foldl_cons] at h
      rw [show omax (some c) (oabs (some q)) = some (qmax c (qabs q)) from rfl] at h
      rcases List.mem_cons.mp hx with rfl | hxt
      · have hle : qmax c (qabs q) ≤ 0 := peak_foldl_le h
        have hq : qabs q = 0 :=
          le_antisymm (le_trans (qmax_le_right c (qabs q)) hle) (qabs_nonneg q)
        rw [qabs_eq_zero hq]
      · exact ih h x hxt

theorem peakOf_zero {buf : SampleBuffer} (h : peakOf buf = some 0) :
    ∀ c ∈ buf.channels, ∀ s ∈ c, s = some 0 := by
  intro c hc s hs
  exact peak_foldl_zero h s (List.mem_flatten.mpr ⟨c, hc, hs⟩)

/-! ## Repair touches nothing outside (non-skipped) event spans -/

theorem repairChanAux_nil (cfg : CleaningConfig) (ch : Nat) (full : List Samp) :
    ∀ (k : Nat) (l : List Samp), repairChanAux cfg [] ch full k l = l := by
  intro k l
  induction l generalizing k with
  | nil => rfl
  | cons s t ih => simp [repairChanAux, repSample, List.find?, ih]

theorem repairAll_nil (cfg : CleaningConfig) :
    ∀ (k : Nat) (cs : List (List Samp)), repairAll cfg [] k cs = cs := by
  intro k cs
  induction cs generalizing k with
  | nil => rfl
  | cons c t ih => simp [repairAll, repairChannel, repairChanAux_nil, ih]

theorem repairBuf_nil (cfg : CleaningConfig) (buf : SampleBuffer) :
    repairBuf cfg buf [] = buf := by
  cases buf
  simp [repairBuf, repairAll_nil]

theorem repairChanAux_length (cfg : CleaningConfig) (events : List ImpulseEvent)
    (ch : Nat) (full : List Samp) :
    ∀ (k : Nat) (l : List Samp), (repairChanAux cfg events ch full k l).length = l.length := by
  intro k l
  induction l generalizing k with
  | nil => rfl
  | cons s t ih => simp [repairChanAux, ih]

theorem repairChanAux_getD (cfg : CleaningConfig) (events : List ImpulseEvent)
    (ch : Nat) (full : List Samp) (d : Samp) :
    ∀ (l : List Samp) (k i : Nat), i < l.length →
      (repairChanAux cfg events ch full k l).getD i d =
        repSample cfg events ch full (k + i) (l.getD i d) := by
  intro l
  induction l with
  | nil => intro k i h; simp at h
  | cons s t ih =>
    intro k i h
    cases i with
    | zero => simp [repairChanAux]
    | succ m =>
      have hm : m < t.length := by simpa using h
      have := ih (k + 1) m hm
      simp only [repairChanAux, List.getD_cons_succ]
      rw [this]
      congr 1
      omega

theorem repairAll_length (cfg : CleaningConfig) (events : List ImpulseEvent) :
    ∀ (k : Nat) (cs : List (List Samp)), (repairAll cfg events k cs).length = cs.length := by
  intro k cs
  induction cs generalizing k with
  | nil => rfl
  | cons c t ih => simp [repairAll, ih]

theorem repairAll_getD (cfg : CleaningConfig) (events : List ImpulseEvent) :
    ∀ (cs : List (List Samp)) (k j : Nat), j < cs.length →
      (repairAll cfg events k cs).getD j [] =
        repairChannel cfg events (k + j) (cs.getD j []) := by
  intro cs
  induction cs with
  | nil => intro k j h; simp at h
  | cons c t ih =>
    intro k j h
    cases j with
    | zero => simp [repairAll]
    | succ m =>
      have hm : m < t.length := by simpa using h
      have := ih (k + 1) m hm
      simp only [repairAll, List.getD_cons_succ]
      rw [this]
      congr 1
      omega

theorem repSample_not_covered (cfg : CleaningConfig) {events : List ImpulseEvent}
    {ch i : Nat} (h : ∀ e ∈ events, coveredBy e ch i = false) (full : List Samp) (s : Samp) :
    repSample cfg events ch full i s = s := by
  have hf : events.find? (fun e => coveredBy e ch i) = none :=
    List.find?_eq_none.mpr (fun e he => by simp [h e he])
  simp [repSample, hf]

theorem repairBuf_sampleAt_not_covered (cfg : CleaningConfig) (buf : SampleBuffer)
    {events : List ImpulseEvent} {ch i : Nat}
    (h : ∀ e ∈ events, coveredBy e ch i = false) :
    sampleAt (repairBuf cfg buf events) ch i = sampleAt buf ch i := by
  show ((repairAll cfg events 0 buf.channels).getD ch []).getD i (some 0) =
    (buf.channels.getD ch []).getD i (some 0)
  by_cases hch : ch < buf.channels.length
  · rw [repairAll_getD cfg events buf.channels 0 ch hch]
    simp only [Nat.zero_add]
    unfold repairChannel
    by_cases hi : i < (buf.channels.getD ch []).length
    · rw [repairChanAux_getD cfg events ch _ _ _ 0 i hi, Nat.zero_add,
        repSample_not_covered cfg h]
    · have hlen : (buf.channels.getD ch []).length ≤ i := le_of_not_lt hi
      rw [List.getD_eq_default _ _ hlen,
        List.getD_eq_default _ _ (by rwa [repairChanAux_length])]
  · have hlen : buf.channels.length ≤ ch := le_of_not_lt hch
    rw [show (repairAll cfg events 0 buf.channels).getD ch [] = [] from
      List.getD_eq_default _ _ (by rw [repairAll_length]; exact hlen),
      List.getD_eq_default _ _ hlen]

/-! ## Run analysis -/

theorem reportOf_clipping (cfg : CleaningConfig) (buf : SampleBuffer) :
    (reportOf cfg buf).clippingDetected = clippingOf (repairedOf cfg buf) := rfl

theorem reportOf_nonFinite (cfg : CleaningConfig) (buf : SampleBuffer) :
    (reportOf cfg buf).nonFiniteCount = nonFiniteCountOf (repairedOf cfg buf) := rfl

theorem reportOf_retention (cfg : CleaningConfig) (buf : SampleBuffer) :
    (reportOf cfg buf).transientRetention =
      retentionOf (normOf cfg buf) (repairedOf cfg buf) := rfl

theorem run_ok_elim {cfg : CleaningConfig} {buf : SampleBuffer} {res : PipelineResult}
    (h : run_baseline_pipeline cfg buf = .ok res) :
    channelsOk buf = true ∧ res = okResult cfg buf := by
  unfold run_baseline_pipeline at h
  split at h
  · split at h
    · simp at h
    · refine ⟨by assumption, ?_⟩
      injection h with h
      exact h.symm
  · simp at h

theorem run_error_elim {cfg : CleaningConfig} {buf : SampleBuffer} {e : PipelineError}
    (h : run_baseline_pipeline cfg buf = .error e) :
    (e = .invalidBuffer ∧ channelsOk buf = false) ∨
    (e = .validationFailed (clippingOf (repairedOf cfg buf)) (nonFiniteCountOf (repairedOf cfg buf)) ∧
      (clippingOf (repairedOf cfg buf) = true ∨ nonFiniteCountOf (repairedOf cfg buf) ≠ 0)) := by
  unfold run_baseline_pipeline at h
  split at h
  · split at h
    · right
      injection h with h
      refine ⟨h.symm, ?_⟩
      rename_i hbad
      rw [reportOf_clipping, reportOf_nonFinite] at hbad
      simpa using hbad
    · simp at h
  · left
    injection h with h
    refine ⟨h.symm, ?_⟩
    rename_i hbad
    simpa using hbad

theorem run_succeeds (cfg : CleaningConfig) (buf : SampleBuffer)
    (hok : channelsOk buf = true)
    (hclip : clippingOf (repairedOf cfg buf) = false)
    (hnfc : nonFiniteCountOf (repairedOf cfg buf) = 0) :
    run_baseline_pipeline cfg buf = .ok (okResult cfg buf) := by
  unfold run_baseline_pipeline
  rw [reportOf_clipping, reportOf_nonFinite, hok, hclip, hnfc]
  simp

/-! ## Silence collapse of each stage -/

theorem energyOf_zero {buf : SampleBuffer} (h : ∀ c ∈ buf.channels, ∀ s ∈ c, s = some 0) :
    energyOf buf = 0 := by
  unfold energyOf
  refine List.sum_eq_zero ?_
  intro x hx
  simp only [List.mem_map] at hx
  obtain ⟨c, hc, rfl⟩ := hx
  refine List.sum_eq_zero ?_
  intro y hy
  simp only [List.mem_map] at hy
  obtain ⟨s, hs, rfl⟩ := hy
  rw [h c hc s hs]
  norm_num [sval, squ]

theorem clippingOf_zero {buf : SampleBuffer} (h : ∀ c ∈ buf.channels, ∀ s ∈ c, s = some 0) :
    clippingOf buf = false := by
  unfold clippingOf
  rw [List.any_eq_false]
  intro c hc
  rw [Bool.not_eq_true, List.any_eq_false]
  intro s hs
  rw [h c hc s hs]
  norm_num [sampleClipped, qabs, ampCeiling]

theorem nonFiniteCountOf_zero {buf : SampleBuffer}
    (h : ∀ c ∈ buf.channels, ∀ s ∈ c, s = some 0) : nonFiniteCountOf buf = 0 := by
  unfold nonFiniteCountOf
  refine List.sum_eq_zero ?_
  intro x hx
  simp only [List.mem_map] at hx
  obtain ⟨c, hc, rfl⟩ := hx
  rw [List.countP_eq_zero]
  intro s hs
  rw [h c hc s hs]
  simp [sampleNonFinite]

theorem normOf_silent (cfg : CleaningConfig) {buf : SampleBuffer}
    (hpeak : peakOf buf = some 0) : normOf cfg buf = buf := by
  unfold normOf normalizeBuf
  rw [hpeak]
  norm_num

theorem eventsOf_silent (cfg : CleaningConfig) {buf : SampleBuffer}
    (hpeak : peakOf buf = some 0) : eventsOf cfg buf = [] := by
  unfold eventsOf detectImpulses
  rw [normOf_silent cfg hpeak]
  exact detectAll_zero (peakOf_zero hpeak) cfg 0

theorem repairedOf_silent (cfg : CleaningConfig) {buf : SampleBuffer}
    (hpeak : peakOf buf = some 0) : repairedOf cfg buf = buf := by
  unfold repairedOf
  rw [normOf_silent cfg hpeak, eventsOf_silent cfg hpeak, repairBuf_nil]

/-- C6: on a buffer whose peak absolute sample value is zero (pure silence),
the Normalizer is a no-op, the ImpulseDetector produces zero ImpulseEvents,
the run succeeds, and the CleanlinessScore label is "Excellent". -/
theorem C6_silence_excellent (cfg : CleaningConfig) (buf : SampleBuffer)
    (hok : channelsOk buf = true) (hpeak : peakOf buf = some 0) :
    normOf cfg buf = buf ∧ eventsOf cfg buf = [] ∧
    run_baseline_pipeline cfg buf = .ok (okResult cfg buf) ∧
    (okResult cfg buf).score.label = "Excellent" := by
  have hz := peakOf_zero hpeak
  have hnorm := normOf_silent cfg hpeak
  have hevents := eventsOf_silent cfg hpeak
  have hrep := repairedOf_silent cfg hpeak
  have hclip : clippingOf (repairedOf cfg buf) = false := by
    rw [hrep]; exact clippingOf_zero hz
  have hnfc : nonFiniteCountOf (repairedOf cfg buf) = 0 := by
    rw [hrep]; exact nonFiniteCountOf_zero hz
  have hplan : planOf cfg buf = [] := by
    unfold planOf
    rw [hevents]
    rfl
  have hret : retentionOf (normOf cfg buf) (repairedOf cfg buf) = 1 := by
    rw [hnorm, hrep]
    unfold retentionOf
    rw [if_pos (energyOf_zero hz)]
  refine ⟨hnorm, hevents, run_succeeds cfg buf hok hclip hnfc, ?_⟩
  show (scoreOf (reportOf cfg buf) (planOf cfg buf)).label = "Excellent"
  have h1 : repairedFraction (planOf cfg buf) = 1 := by
    rw [hplan]; norm_num [repairedFraction]
  have h2 : (reportOf cfg buf).transientRetention = 1 := by
    rw [reportOf_retention]; exact hret
  have h3 : (reportOf cfg buf).retentionWarning = false := by
    show decide (retentionOf (normOf cfg buf) (repairedOf cfg buf) < retentionFloor) = false
    rw [hret]
    norm_num [retentionFloor]
  unfold scoreOf
  rw [h1, h2, h3]
  norm_num [qmin, qmax]

/-- C1: every sample of the repaired output outside the span of every
detected ImpulseEvent equals the corresponding normalized-input sample; in
particular with zero events the output buffer equals the normalized input
exactly. -/
theorem C1_outside_spans_unchanged (cfg : CleaningConfig) (buf : SampleBuffer) :
    ∀ res, run_baseline_pipeline cfg buf = .ok res →
      (∀ ch i, (∀ e ∈ res.events, coveredBy e ch i = false) →
        sampleAt res.output ch i = sampleAt (normOf cfg buf) ch i) ∧
      (res.events = [] → res.output = normOf cfg buf) := by
  intro res hr
  obtain ⟨hok, rfl⟩ := run_ok_elim hr
  constructor
  · intro ch i h
    show sampleAt (repairedOf cfg buf) ch i = sampleAt (normOf cfg buf) ch i
    unfold repairedOf
    exact repairBuf_sampleAt_not_covered cfg (normOf cfg buf) h
  · intro hev
    show repairedOf cfg buf = normOf cfg buf
    unfold repairedOf
    rw [show eventsOf cfg buf = [] from hev, repairBuf_nil]

theorem C1_outside_spans_unchanged_witness :
    (∀ ch i, (∀ e ∈ (okResult cfgLowP zeroBuf).events, coveredBy e ch i = false) →
      sampleAt (okResult cfgLowP zeroBuf).output ch i = sampleAt (normOf cfgLowP zeroBuf) ch i) ∧
    ((okResult cfgLowP zeroBuf).events = [] →
      (okResult cfgLowP zeroBuf).output = normOf cfgLowP zeroBuf) :=
  C1_outside_spans_unchanged cfgLowP zeroBuf (okResult cfgLowP zeroBuf) (by decide!)

/-- C2: the cleaning operation is deterministic — identical input buffer and
configuration give bit-identical run results, in particular the same output
buffer, ImpulseEvent list and CleanlinessScore; the model has no source of
randomness. -/
theorem C2_deterministic (cfg1 cfg2 : CleaningConfig) (buf1 buf2 : SampleBuffer)
    (hc : cfg1 = cfg2) (hb : buf1 = buf2) :
    run_baseline_pipeline cfg1 buf1 = run_baseline_pipeline cfg2 buf2 ∧
    eventsOf cfg1 buf1 = eventsOf cfg2 buf2 ∧
    (okResult cfg1 buf1).output = (okResult cfg2 buf2).output ∧
    (okResult cfg1 buf1).score = (okResult cfg2 buf2).score := by
  subst hc; subst hb
  exact ⟨rfl, rfl, rfl, rfl⟩

theorem C2_deterministic_witness :
    run_baseline_pipeline cfgLowP zeroBuf = run_baseline_pipeline cfgLowP zeroBuf ∧
    eventsOf cfgLowP zeroBuf = eventsOf cfgLowP zeroBuf ∧
    (okResult cfgLowP zeroBuf).output = (okResult cfgLowP zeroBuf).output ∧
    (okResult cfgLowP zeroBuf).score = (okResult cfgLowP zeroBuf).score :=
  C2_deterministic cfgLowP cfgLowP zeroBuf zeroBuf rfl rfl

/-- C5: a buffer with mismatched channel lengths makes the run fail with
`invalidBuffer`; the pipeline checks the buffer before any stage runs and
produces no stage output. -/
theorem C5_invalid_buffer (cfg : CleaningConfig) (buf : SampleBuffer)
    (h : channelsOk buf = false) :
    run_baseline_pipeline cfg buf = .error .invalidBuffer := by
  unfold run_baseline_pipeline
  rw [h]
  simp

theorem C5_invalid_buffer_witness :
    run_baseline_pipeline cfgLowP badBuf = .error .invalidBuffer :=
  C5_invalid_buffer cfgLowP badBuf (by decide)

/-- C4: with a well-formed input buffer, the run fails with
`validationFailed` exactly when the repaired buffer holds a clipped or a
non-finite sample; when it holds neither, the run succeeds no matter how
small the transient-retention quotient is, a shortfall below the 0.90 floor
being recorded only as the report's soft warning flag. -/
theorem C4_validation (cfg : CleaningConfig) (buf : SampleBuffer)
    (hok : channelsOk buf = true) :
    ((∃ c n, run_baseline_pipeline cfg buf = .error (.validationFailed c n)) ↔
      (clippingOf (repairedOf cfg buf) = true ∨ nonFiniteCountOf (repairedOf cfg buf) ≠ 0)) ∧
    (clippingOf (repairedOf cfg buf) = false → nonFiniteCountOf (repairedOf cfg buf) = 0 →
      run_baseline_pipeline cfg buf = .ok (okResult cfg buf) ∧
      ((okResult cfg buf).report.retentionWarning =
        decide (retentionOf (normOf cfg buf) (repairedOf cfg buf) < retentionFloor))) := by
  constructor
  · constructor
    · rintro ⟨c, n, hr⟩
      rcases run_error_elim hr with ⟨he, _⟩ | ⟨_, hbad⟩
      · simp at he
      · exact hbad
    · intro hbad
      refine ⟨clippingOf (repairedOf cfg buf), nonFiniteCountOf (repairedOf cfg buf), ?_⟩
      unfold run_baseline_pipeline
      rw [reportOf_clipping, reportOf_nonFinite, hok]
      have : (clippingOf (repairedOf cfg buf) ||
          (nonFiniteCountOf (repairedOf cfg buf) != 0)) = true := by
        rcases hbad with h | h
        · simp [h]
        · simp [h]
      simp [this]
  · intro hclip hnfc
    exact ⟨run_succeeds cfg buf hok hclip hnfc, rfl⟩

theorem C4_validation_witness :
    ((∃ c n, run_baseline_pipeline cfgLowP zeroBuf = .error (.validationFailed c n)) ↔
      (clippingOf (repairedOf cfgLowP zeroBuf) = true ∨
        nonFiniteCountOf (repairedOf cfgLowP zeroBuf) ≠ 0)) ∧
    (clippingOf (repairedOf cfgLowP zeroBuf) = false →
      nonFiniteCountOf (repairedOf cfgLowP zeroBuf) = 0 →
      run_baseline_pipeline cfgLowP zeroBuf = .ok (okResult cfgLowP zeroBuf) ∧
      ((okResult cfgLowP zeroBuf).report.retentionWarning =
        decide (retentionOf (normOf cfgLowP zeroBuf) (repairedOf cfgLowP zeroBuf) <
          retentionFloor))) :=
  C4_validation cfgLowP zeroBuf (by decide)

theorem C6_silence_excellent_witness :
    normOf cfgLowP zeroBuf = zeroBuf ∧ eventsOf cfgLowP zeroBuf = [] ∧
    run_baseline_pipeline cfgLowP zeroBuf = .ok (okResult cfgLowP zeroBuf) ∧
    (okResult cfgLowP zeroBuf).score.label = "Excellent" :=
  C6_silence_excellent cfgLowP zeroBuf (by decide) (by decide!)

/-- C8: every Orchestrator transition advances one step along the fixed
stage sequence, or fails from a non-terminal stage, or cancels from a
non-terminal stage; the terminal states Done, Failed and Cancelled have no
outgoing transitions. -/
theorem C8_orchestrator_terminal :
    (∀ s t, OrchStep s t →
      nextStage s = some t ∨ (∃ e, t = .failed e) ∨ t = .cancelled) ∧
    (∀ s t, OrchStep s t → isTerminal s = false) ∧
    (∀ t, ¬ OrchStep .done t) ∧ (∀ t, ¬ OrchStep .cancelled t) ∧
    (∀ e t, ¬ OrchStep (.failed e) t) := by
  have hterm : ∀ s t, OrchStep s t → isTerminal s = false := by
    intro s t h
    cases h with
    | advance t hn => cases s <;> simp_all [nextStage, isTerminal]
    | fail e hs => exact hs
    | cancel hs => exact hs
  refine ⟨?_, hterm, ?_, ?_, ?_⟩
  · intro s t h
    cases h with
    | advance t hn => exact .inl hn
    | fail e _ => exact .inr (.inl ⟨e, rfl⟩)
    | cancel _ => exact .inr (.inr rfl)
  · intro t h
    exact absurd (hterm _ _ h) (by simp [isTerminal])
  · intro t h
    exact absurd (hterm _ _ h) (by simp [isTerminal])
  · intro e t h
    exact absurd (hterm _ _ h) (by simp [isTerminal])

theorem C8_orchestrator_terminal_witness :
    nextStage .idle = some .normalizing ∨
      (∃ e, OrchState.normalizing = .failed e) ∨ OrchState.normalizing = .cancelled :=
  C8_orchestrator_terminal.1 .idle .normalizing (.advance _ _ rfl)

/-! ## Detected events are pairwise disjoint -/

theorem candList_sorted (cfg : CleaningConfig) (xs : List ℚ) :
    List.Pairwise (· < ·) (candList cfg xs) :=
  List.Pairwise.sublist (List.filter_sublist _) (List.pairwise_lt_range _)

theorem runsAux_bounds : ∀ (cs : List Nat) (a b : Nat), a ≤ b →
    (∀ x ∈ cs, b < x) → List.Pairwise (· < ·) cs →
    ∀ p ∈ runsAux a b cs, a ≤ p.1 ∧ p.1 ≤ p.2 ∧ b ≤ p.2 := by
  intro cs
  induction cs with
  | nil =>
    intro a b hab _ _ p hp
    simp only [runsAux, List.mem_singleton] at hp
    subst hp
    exact ⟨le_refl _, hab, le_refl _⟩
  | cons c t ih =>
    intro a b hab hgt hp p hmem
    have hbc : b < c := hgt c (by simp)
    have ht : ∀ x ∈ t, c < x := (List.pairwise_cons.mp hp).1
    have hpt : List.Pairwise (· < ·) t := (List.pairwise_cons.mp hp).2
    unfold runsAux at hmem
    split at hmem
    · have := ih a c (le_trans hab (le_of_lt hbc)) ht hpt p hmem
      exact ⟨this.1, this.2.1, le_trans (le_of_lt hbc) this.2.2⟩
    · rcases List.mem_cons.mp hmem with rfl | hmem2
      · exact ⟨le_refl _, hab, le_refl _⟩
      · have := ih c c (le_refl c) ht hpt p hmem2
        exact ⟨le_trans (le_trans hab (le_of_lt hbc)) this.1, this.2.1,
          le_trans (le_of_lt hbc) this.2.2⟩

theorem runsAux_sep : ∀ (cs : List Nat) (a b : Nat), a ≤ b →
    (∀ x ∈ cs, b < x) → List.Pairwise (· < ·) cs →
    List.Pairwise (fun p q : Nat × Nat => p.2 + mergeGap < q.1) (runsAux a b cs) := by
  intro cs
  induction cs with
  | nil =>
    intro a b _ _ _
    simp [runsAux]
  | cons c t ih =>
    intro a b hab hgt hp
    have hbc : b < c := hgt c (by simp)
    have ht : ∀ x ∈ t, c < x := (List.pairwise_cons.mp hp).1
    have hpt : List.Pairwise (· < ·) t := (List.pairwise_cons.mp hp).2
    unfold runsAux
    split
    · exact ih a c (le_trans hab (le_of_lt hbc)) ht hpt
    · rename_i hgap
      have hgap2 : b + mergeGap < c := Nat.lt_of_not_le hgap
      refine List.pairwise_cons.mpr ⟨?_, ih c c (le_refl c) ht hpt⟩
      intro q hq
      exact lt_of_lt_of_le hgap2 (runsAux_bounds t c c (le_refl c) ht hpt q hq).1

theorem runsOf_sep {cs : List Nat} (hp : List.Pairwise (· < ·) cs) :
    List.Pairwise (fun p q : Nat × Nat => p.2 + mergeGap < q.1) (runsOf cs) := by
  cases cs with
  | nil => simp [runsOf]
  | cons c t =>
    exact runsAux_sep t c c (le_refl c) (List.pairwise_cons.mp hp).1
      (List.pairwise_cons.mp hp).2

theorem detectChannel_channel (cfg : CleaningConfig) (ch : Nat) (chan : List Samp) :
    ∀ e ∈ detectChannel cfg ch chan, e.channel = ch := by
  intro e he
  simp only [detectChannel, List.mem_map] at he
  obtain ⟨r, _, rfl⟩ := he
  rfl

theorem detectChannel_pairwise (cfg : CleaningConfig) (ch : Nat) (chan : List Samp) :
    List.Pairwise EvDisjoint (detectChannel cfg ch chan) := by
  unfold detectChannel
  rw [List.pairwise_map]
  refine (runsOf_sep (candList_sorted cfg (vals chan))).imp ?_
  intro p q hpq
  right; left
  show min (p.2 + 1 + guardMargin) (vals chan).length ≤ q.1 - guardMargin
  refine le_trans (min_le_left _ _) ?_
  simp only [mergeGap] at hpq
  simp only [guardMargin]
  omega

theorem detectAll_channel_ge (cfg : CleaningConfig) :
    ∀ (cs : List (List Samp)) (k : Nat), ∀ e ∈ detectAll cfg k cs, k ≤ e.channel := by
  intro cs
  induction cs with
  | nil =>
    intro k e he
    simp [detectAll] at he
  | cons c t ih =>
    intro k e he
    rcases List.mem_append.mp he with h1 | h2
    · exact le_of_eq (detectChannel_channel cfg k c e h1).symm
    · exact le_trans (Nat.le_succ k) (ih (k + 1) e h2)

theorem detectAll_pairwise (cfg : CleaningConfig) :
    ∀ (cs : List (List Samp)) (k : Nat), List.Pairwise EvDisjoint (detectAll cfg k cs) := by
  intro cs
  induction cs with
  | nil =>
    intro k
    simp [detectAll]
  | cons c t ih =>
    intro k
    show List.Pairwise EvDisjoint (detectChannel cfg k c ++ detectAll cfg (k + 1) t)
    rw [List.pairwise_append]
    refine ⟨detectChannel_pairwise cfg k c, ih (k + 1), ?_⟩
    intro a ha b hb
    left
    have h1 : a.channel = k := detectChannel_channel cfg k c a ha
    have h2 : k + 1 ≤ b.channel := detectAll_channel_ge cfg t (k + 1) b hb
    omega

theorem eventsOf_pairwise (cfg : CleaningConfig) (buf : SampleBuffer) :
    List.Pairwise EvDisjoint (eventsOf cfg buf) :=
  detectAll_pairwise cfg (normOf cfg buf).channels 0

theorem evDisjoint_symm : Symmetric EvDisjoint := by
  intro a b h
  rcases h with h | h | h
  · exact .inl (Ne.symm h)
  · exact .inr (.inr h)
  · exact .inr (.inl h)

theorem coveredBy_elim {ev : ImpulseEvent} {ch i : Nat} (h : coveredBy ev ch i = true) :
    ev.channel = ch ∧ ev.start ≤ i ∧ i < ev.stop := by
  simp only [coveredBy, Bool.and_eq_true, beq_iff_eq, decide_eq_true_eq] at h
  exact ⟨h.1.1, h.1.2, h.2⟩

theorem covering_unique {events : List ImpulseEvent}
    (hdisj : List.Pairwise EvDisjoint events) {ev e : ImpulseEvent}
    (hev : ev ∈ events) (he : e ∈ events) {ch i : Nat}
    (hcov1 : coveredBy ev ch i = true) (hcov2 : coveredBy e ch i = true) : e = ev := by
  by_contra hne
  obtain ⟨hc1, hs1, he1⟩ := coveredBy_elim hcov1
  obtain ⟨hc2, hs2, he2⟩ := coveredBy_elim hcov2
  rcases hdisj.forall evDisjoint_symm he hev hne with hch | hso | hos
  · exact hch (hc2.trans hc1.symm)
  · omega
  · omega

/-! ## Skipped events leave their samples unrepaired -/

theorem repSample_all_skip (cfg : CleaningConfig) {events : List ImpulseEvent} {ch i : Nat}
    (h : ∀ e ∈ events, coveredBy e ch i = true → planMethod cfg events e = .skip)
    (full : List Samp) (s : Samp) : repSample cfg events ch full i s = s := by
  cases hf : events.find? (fun e => coveredBy e ch i) with
  | none => simp [repSample, hf]
  | some ev =>
    have hcov : coveredBy ev ch i = true := by simpa using List.find?_some hf
    have hmem : ev ∈ events := List.mem_of_find?_eq_some hf
    simp [repSample, hf, h ev hmem hcov]

theorem repairBuf_sampleAt_all_skip (cfg : CleaningConfig) (buf : SampleBuffer)
    {events : List ImpulseEvent} {ch i : Nat}
    (h : ∀ e ∈ events, coveredBy e ch i = true → planMethod cfg events e = .skip) :
    sampleAt (repairBuf cfg buf events) ch i = sampleAt buf ch i := by
  show ((repairAll cfg events 0 buf.channels).getD ch []).getD i (some 0) =
    (buf.channels.getD ch []).getD i (some 0)
  by_cases hch : ch < buf.channels.length
  · rw [repairAll_getD cfg events buf.channels 0 ch hch]
    simp only [Nat.zero_add]
    unfold repairChannel
    by_cases hi : i < (buf.channels.getD ch []).length
    · rw [repairChanAux_getD cfg events ch _ _ _ 0 i hi, Nat.zero_add,
        repSample_all_skip cfg h]
    · have hlen : (buf.channels.getD ch []).length ≤ i := le_of_not_lt hi
      rw [List.getD_eq_default _ _ hlen,
        List.getD_eq_default _ _ (by rwa [repairChanAux_length])]
  · have hlen : buf.channels.length ≤ ch := le_of_not_lt hch
    rw [show (repairAll cfg events 0 buf.channels).getD ch [] = [] from
      List.getD_eq_default _ _ (by rw [repairAll_length]; exact hlen),
      List.getD_eq_default _ _ hlen]

/-- C3: every detected event whose span exceeds the safety limit is marked
skip in the RepairPlan, its samples are left unrepaired, the skip is
recorded in the QualityReport outcomes, and a run never fails because of a
skipped event — the only failure causes are a malformed buffer or a
clipped/non-finite repaired sample. -/
theorem C3_long_spans_skipped (cfg : CleaningConfig) (buf : SampleBuffer) :
    (∀ res ev, run_baseline_pipeline cfg buf = .ok res → ev ∈ res.events →
      maxSpanOf cfg.aggressiveness < spanLen ev →
      (ev, RepairMethod.skip) ∈ res.plan ∧
      (∀ i, ev.start ≤ i → i < ev.stop →
        sampleAt res.output ev.channel i = sampleAt (normOf cfg buf) ev.channel i) ∧
      (ev, RepairMethod.skip) ∈ res.report.outcomes) ∧
    (∀ e, run_baseline_pipeline cfg buf = .error e →
      (e = .invalidBuffer ∧ channelsOk buf = false) ∨
      (e = .validationFailed (clippingOf (repairedOf cfg buf))
          (nonFiniteCountOf (repairedOf cfg buf)) ∧
        (clippingOf (repairedOf cfg buf) = true ∨
          nonFiniteCountOf (repairedOf cfg buf) ≠ 0))) := by
  constructor
  · intro res ev hr hev hlong
    obtain ⟨hok, rfl⟩ := run_ok_elim hr
    have hevents : ev ∈ eventsOf cfg buf := hev
    have hskip : planMethod cfg (eventsOf cfg buf) ev = .skip := by
      unfold planMethod
      rw [if_pos hlong]
    have hplan : (ev, RepairMethod.skip) ∈ planOf cfg buf :=
      List.mem_map.mpr ⟨ev, hevents, by rw [hskip]⟩
    refine ⟨hplan, ?_, hplan⟩
    intro i hsi hie
    show sampleAt (repairedOf cfg buf) ev.channel i = sampleAt (normOf cfg buf) ev.channel i
    unfold repairedOf
    refine repairBuf_sampleAt_all_skip cfg (normOf cfg buf) ?_
    intro e he hcov
    have hcovev : coveredBy ev ev.channel i = true := by
      simp [coveredBy, hsi, hie]
    have : e = ev := covering_unique (eventsOf_pairwise cfg buf) hevents he hcovev hcov
    rw [this, hskip]
  · intro e hr
    exact run_error_elim hr

theorem C3_long_spans_skipped_witness :
    ((eventsOf cfgLowP c3Buf).headD ⟨0, 0, 0, 0, 0⟩, RepairMethod.skip) ∈
      (okResult cfgLowP c3Buf).plan ∧
    (∀ i, ((eventsOf cfgLowP c3Buf).headD ⟨0, 0, 0, 0, 0⟩).start ≤ i →
      i < ((eventsOf cfgLowP c3Buf).headD ⟨0, 0, 0, 0, 0⟩).stop →
      sampleAt (okResult cfgLowP c3Buf).output
          ((eventsOf cfgLowP c3Buf).headD ⟨0, 0, 0, 0, 0⟩).channel i =
        sampleAt (normOf cfgLowP c3Buf)
          ((eventsOf cfgLowP c3Buf).headD ⟨0, 0, 0, 0, 0⟩).channel i) ∧
    ((eventsOf cfgLowP c3Buf).headD ⟨0, 0, 0, 0, 0⟩, RepairMethod.skip) ∈
      (okResult cfgLowP c3Buf).report.outcomes :=
  (C3_long_spans_skipped cfgLowP c3Buf).1 (okResult cfgLowP c3Buf)
    ((eventsOf cfgLowP c3Buf).headD ⟨0, 0, 0, 0, 0⟩) (by decide!) (by decide!) (by decide!)

/-! ## Aggressiveness claims -/

/-- C7 counterexample: the claim "raising aggressiveness never decreases the
number of detected ImpulseEvents" fails on `cexBuf`: at Low the detector
finds 2 events, at Standard the additional middle candidate merges them
into a single event. -/
theorem C7_counterexample :
    numEventsOf cfgLowP cexBuf = 2 ∧ numEventsOf cfgStdP cexBuf = 1 ∧
    numEventsOf cfgStdP cexBuf < numEventsOf cfgLowP cexBuf := by
  refine ⟨by decide!, by decide!, by decide!⟩

/-- C7 amended: raising aggressiveness (Low → Standard → High, otherwise
fixed configuration) never loses a detection — every candidate sample at
the lower setting is still a candidate at the higher one, and the total
candidate count over the normalized buffer never decreases; the event count
itself can drop when neighboring detections merge. -/
theorem C7_candidates_monotone (cfg : CleaningConfig) (a b : Aggressiveness)
    (hab : aggRank a ≤ aggRank b) :
    (∀ xs i, isCand (withAgg cfg a) xs i = true → isCand (withAgg cfg b) xs i = true) ∧
    (∀ buf, candTotal (withAgg cfg a) buf ≤ candTotal (withAgg cfg b) buf) := by
  refine ⟨fun xs i h => isCand_mono cfg hab xs i h, ?_⟩
  intro buf
  have hnorm : normOf (withAgg cfg a) buf = normOf (withAgg cfg b) buf := rfl
  unfold candTotal
  rw [hnorm]
  exact List.sum_le_sum (fun c _ => candList_length_mono cfg hab (vals c))

theorem C7_candidates_monotone_witness :
    (∀ xs i, isCand (withAgg cfgLowP .low) xs i = true →
      isCand (withAgg cfgLowP .standard) xs i = true) ∧
    (∀ buf, candTotal (withAgg cfgLowP .low) buf ≤ candTotal (withAgg cfgLowP .standard) buf) :=
  C7_candidates_monotone cfgLowP .low .standard (by decide)

/-! ## Desktop UI claims -/

/-- C9: the App component is a constant pure function — it takes no props,
uses no state, and any two renders return the identical element tree, which
is built only from the module-level constants `metrics`, `activity` and
`presets`. -/
theorem C9_app_constant :
    (∀ u v : Unit, App u = App v) ∧
    (∀ u : Unit, App u = appRender metrics activity presets) :=
  ⟨fun _ _ => rfl, fun _ => rfl⟩

/-- C10: in the whole rendered App tree, no element has any event handler
attached, every button element has an explicit type="button" attribute, and
every input element is uncontrolled (only default values, no value/checked
binding and no change or click handler attribute). -/
theorem C10_no_interactive_handlers :
    uiAllF 4096 noHandlers (App ()) = true ∧
    uiAllF 4096 buttonTyped (App ()) = true ∧
    uiAllF 4096 inputUncontrolled (App ()) = true := by
  refine ⟨by decide, by decide, by decide⟩
